import Mathlib

/-!
Shallow embedding of the will/witness/registry handlers of
`src/sdk/examples/intkey_python/sawtooth_intkey/client_cli/intkey_cli.py`.

The handlers read and write JSON values in a flat key/value store through the
intkey client (`client.set(key, value, wait)` / `get_value(args, key)`, the
latter raising `IntkeyClientException` when the key is absent).  We model the
store as a function from string keys to optional values, and the three shapes
of value the handlers actually store (string lists for `KEY_NEED_REVIEW` and
`WILL_LIST_*` keys, user records, will documents) as a small inductive `Val`.

Each handler becomes a Lean function on the store.  A handler that can raise
mid-way (an unhandled Python exception after some writes already happened)
returns the store as it stands at the raise together with a flag / result
value, so that partial-write behaviour is preserved.
-/

/-- A public-key record as stored by `register_pubkey` / `approve_public_key`:
the required `public_key` field, the optional `status` field (`'status' in
body` ↔ `status ≠ none`), and the remaining arbitrary profile fields, which
the handlers never inspect. -/
structure UserRecord where
  public_key : String
  status : Option String
  profile : List (String × String)
  deriving DecidableEq, Repr

/-- One entry of a will's `witnesses` list: a dict with a `public_key` field
and an optional `status` field (`'status' in wn` ↔ `status ≠ none`). -/
structure WitnessEntry where
  public_key : String
  status : Option String
  deriving DecidableEq, Repr

/-- A will document as handled by `create_will` / `witness_sign`:
`public_key` (the testator), the optional `witnesses` list (`'witnesses' in
body` ↔ `witnesses ≠ none`) and the optional `status` field. -/
structure WillBody where
  public_key : String
  witnesses : Option (List WitnessEntry)
  status : Option String
  deriving DecidableEq, Repr

/-- The three shapes of value the handlers store in the flat namespace. -/
inductive Val where
  | list (xs : List String)
  | user (u : UserRecord)
  | will (w : WillBody)
  deriving DecidableEq, Repr

/-- The flat key/value store: `s k = none` models the key never written
(`get_value` raises `IntkeyClientException`). -/
def Store : Type := String → Option Val

/-- `client.set(k, v, wait)`. -/
def Store.set (s : Store) (k : String) (v : Val) : Store :=
  fun k2 => if k2 = k then some v else s k2

/-- The store before anything was written. -/
def emptyStore : Store := fun _ => none

/-- The well-known key of the pending-review list (`KEY_NEED_REVIEW`). -/
def KEY_NEED_REVIEW : String := "KEY_NEED_REVIEW"

/-- The key a testator's will is stored at (`WILL_` + testator key). -/
def willKeyOf (t : String) : String := "WILL_" ++ t

/-- The key a witness's will index is stored at (`WILL_LIST_` + witness key). -/
def willListKeyOf (w : String) : String := "WILL_LIST_" ++ w

/-- Handler `register_pubkey` (lines 521-575), given a request body that
already passed the `'public_key' in body` check.  If `'status' not in body`
the status defaults to `need_review`; the pending list is read (a fresh empty
list is written first when the key was absent), the key is appended when not
already present, and list and record are written back.  The source reads
`body["public_key"]` after the status defaulting, which does not change that
field, so we bind it from the original body.  When `KEY_NEED_REVIEW` holds a
non-list value, `list_pending.append(pubkey)` raises `AttributeError` before
any write (unless `pubkey` collides with a field name of the stored dict, a
corner no claim reaches), so the handler aborts with the store unchanged. -/
def register_pubkey (s : Store) (body0 : UserRecord) : Store × Bool :=
  let body := if body0.status = none then { body0 with status := some "need_review" } else body0
  let pubkey := body0.public_key
  match s KEY_NEED_REVIEW with
  | some (Val.list xs) =>
    let l := if pubkey ∈ xs then xs else xs ++ [pubkey]
    (Store.set (Store.set s KEY_NEED_REVIEW (Val.list l)) pubkey (Val.user body), true)
  | none =>
    (Store.set (Store.set (Store.set s KEY_NEED_REVIEW (Val.list []))
        KEY_NEED_REVIEW (Val.list [pubkey])) pubkey (Val.user body), true)
  | some _ => (s, false)

/-- Handler `show_user` (lines 578-606): `get_value(args, pubkey)`. -/
def show_user (s : Store) (pubkey : String) : Option UserRecord :=
  match s pubkey with
  | some (Val.user u) => some u
  | _ => none

/-- Resolution loop of `list_need_approve` (lines 626-628): for each key in
the pending list, `get_value` the record and append it; an absent key raises,
aborting the whole listing (there is no try/except around the loop). -/
def lookupVals (s : Store) : List String → Option (List Val)
  | [] => some []
  | pk :: rest =>
    match s pk with
    | some v => (lookupVals s rest).map (fun vs => v :: vs)
    | none => none

/-- Handler `list_need_approve` (lines 608-633): read the pending list
(raising when absent), then resolve every entry; any failed lookup aborts. -/
def list_need_approve (s : Store) : Option (List Val) :=
  match s KEY_NEED_REVIEW with
  | some (Val.list pending) => lookupVals s pending
  | _ => none

/-- Handler `approve_public_key` (lines 636-672), given the `public_key`
query parameter.  The record is read (raising when absent, before any
write), its status set to `approved` and written back; then the pending list
is read (raising when absent or when the record write just clobbered it,
after the record write already happened), the key removed when present
(`list.remove`, first occurrence) and written back. -/
def approve_public_key (s : Store) (pubkey : String) : Store × Bool :=
  match s pubkey with
  | some (Val.user body0) =>
    let body := { body0 with status := some "approved" }
    let s1 := Store.set s pubkey (Val.user body)
    match s1 KEY_NEED_REVIEW with
    | some (Val.list xs) =>
      let l := if pubkey ∈ xs then xs.erase pubkey else xs
      (Store.set s1 KEY_NEED_REVIEW (Val.list l), true)
    | _ => (s1, false)
  | _ => (s, false)

/-- The per-witness index loop of `create_will` (lines 706-719): for each
witness entry, read that witness's will list (absent means empty, with no
write), append the testator when not already present and write the list
back.  A non-list value at the index key makes `will_list.append(pubkey)`
raise `AttributeError` before this iteration writes (the same dict-field
corner as in `register_pubkey` aside), aborting with the writes so far. -/
def updateWillLists (pubkey : String) : Store → List WitnessEntry → Store × Bool
  | s, [] => (s, true)
  | s, wn :: rest =>
    match s (willListKeyOf wn.public_key) with
    | some (Val.list xs) =>
      if pubkey ∈ xs then updateWillLists pubkey s rest
      else updateWillLists pubkey
        (Store.set s (willListKeyOf wn.public_key) (Val.list (xs ++ [pubkey]))) rest
    | none =>
      updateWillLists pubkey
        (Store.set s (willListKeyOf wn.public_key) (Val.list [pubkey])) rest
    | some _ => (s, false)

/-- Handler `create_will` (lines 675-727), given a request body that already
passed the `'public_key' in body` check.  When `'witnesses' not in body or
len(body['witnesses']) == 0`, the body's status is set to `valid`; otherwise
the body is left untouched and each witness index is updated.  Finally the
body is written at `WILL_` + testator key, unconditionally overwriting
whatever was stored there. -/
def create_will (s : Store) (body : WillBody) : Store × Bool :=
  let pubkey := body.public_key
  match body.witnesses with
  | none =>
    (Store.set s (willKeyOf pubkey) (Val.will { body with status := some "valid" }), true)
  | some ws =>
    if ws.length = 0 then
      (Store.set s (willKeyOf pubkey) (Val.will { body with status := some "valid" }), true)
    else
      match updateWillLists pubkey s ws with
      | (s1, true) => (Store.set s1 (willKeyOf pubkey) (Val.will body), true)
      | (s1, false) => (s1, false)

/-- Handler `show_will` (lines 730-758): `get_value(args, WILL_ + pubkey)`. -/
def show_will (s : Store) (pubkey : String) : Option WillBody :=
  match s (willKeyOf pubkey) with
  | some (Val.will w) => some w
  | _ => none

/-- The entry updates of the `witness_sign` loop (lines 838-845): every entry
whose `public_key` equals the signing witness gets `status = 'signed'`;
other entries are unchanged. -/
def signEntries (witness : String) : List WitnessEntry → List WitnessEntry
  | [] => []
  | wn :: rest =>
    (if wn.public_key = witness then { wn with status := some "signed" } else wn) ::
      signEntries witness rest

/-- The `sign_count` computed by the `witness_sign` loop (lines 837-845).
Each iteration first adds 1 when the entry already carries
`status == 'signed'` (read before this iteration's own update), then adds 1
again when the entry's `public_key` equals the signing witness.  An entry
that is both already signed and the signing witness therefore contributes 2:
the source double-counts a re-signing witness. -/
def signCount (witness : String) : List WitnessEntry → Nat
  | [] => 0
  | wn :: rest =>
    (if wn.status = some "signed" then 1 else 0) +
      (if wn.public_key = witness then 1 else 0) + signCount witness rest

/-- The `found_witness` flag of the `witness_sign` loop: some entry's
`public_key` equals the signing witness. -/
def foundWitness (witness : String) : List WitnessEntry → Bool
  | [] => false
  | wn :: rest => if wn.public_key = witness then true else foundWitness witness rest

/-- Outcome of a `witness_sign` call: the 200 response with the updated will,
the 400 `'Witness is not found in this will'` response, or an unhandled
exception (`get_value` raise on a missing will, `KeyError` on a will without
a `witnesses` field, `TypeError` on a non-will value). -/
inductive SignResult where
  | ok (w : WillBody)
  | notListed
  | raised
  deriving DecidableEq, Repr

/-- Handler `witness_sign` (lines 807-879), given the `public_key` (testator)
and `witness` query parameters.  The will is read, the loop marks matching
entries signed and counts (see `signEntries` / `signCount` / `foundWitness`);
when no entry matched, the 400 error is returned with nothing written; when
`sign_count` equals the length of the witness list the status is set to
`valid`; the updated body is written back. -/
def witness_sign (s : Store) (pubkey witness : String) : Store × SignResult :=
  match s (willKeyOf pubkey) with
  | some (Val.will body) =>
    match body.witnesses with
    | some ws =>
      let ws2 := signEntries witness ws
      if foundWitness witness ws then
        let st := if signCount witness ws = ws2.length then some "valid" else body.status
        let body2 : WillBody := { body with witnesses := some ws2, status := st }
        (Store.set s (willKeyOf pubkey) (Val.will body2), SignResult.ok body2)
      else
        (s, SignResult.notListed)
    | none => (s, SignResult.raised)
  | _ => (s, SignResult.raised)

/-- The pending-review list as read back from a store, empty when the key is
absent or holds a non-list value. -/
def pendingOf (s : Store) : List String :=
  match s KEY_NEED_REVIEW with
  | some (Val.list xs) => xs
  | _ => []

/-- The registry operations C5 quantifies over. -/
inductive Op where
  | register (body : UserRecord)
  | approve (pubkey : String)
  deriving DecidableEq, Repr

/-- Effect of one registry operation on the store (the store as left behind
also on the error paths). -/
def applyOp (s : Store) : Op → Store
  | Op.register body => (register_pubkey s body).1
  | Op.approve pk => (approve_public_key s pk).1

/-- `True` when a key holds a string list or was never written: the states in
which the index loops proceed without raising. -/
def listOrAbsent : Option Val → Bool
  | none => true
  | some (Val.list _) => true
  | some _ => false

/-! ## Store lemmas -/

theorem Store.get_set_same (s : Store) (k : String) (v : Val) : Store.set s k v k = some v := by
  simp [Store.set]

theorem Store.get_set_ne (s : Store) (k k2 : String) (v : Val) (h : k2 ≠ k) :
    Store.set s k v k2 = s k2 := by
  simp [Store.set, h]

/-! ## Concrete stores and records used by the closed theorems -/

/-- Will request with a single witness `bob` and no status field. -/
def bobEntry : WitnessEntry := { public_key := "bob", status := none }

/-- The request body of `CreateWill("alice", [\x7b"public_key":"bob"\x7d])`. -/
def aliceWillReq : WillBody := { public_key := "alice", witnesses := some [bobEntry], status := none }

/-- Unsigned witness entry `A`. -/
def entA : WitnessEntry := { public_key := "A", status := none }

/-- Unsigned witness entry `B`. -/
def entB : WitnessEntry := { public_key := "B", status := none }

/-- A freshly created will of testator `t` with two unsigned witnesses. -/
def willAB : WillBody := { public_key := "t", witnesses := some [entA, entB], status := none }

/-- Store holding only the will of `t`. -/
def storeAB : Store := Store.set emptyStore (willKeyOf "t") (Val.will willAB)

/-- Witness entry `A` that has already signed. -/
def entASigned : WitnessEntry := { public_key := "A", status := some "signed" }

/-- A will of testator `u` in which `A` has signed once and `B` never has. -/
def willResign : WillBody := { public_key := "u", witnesses := some [entASigned, entB], status := none }

/-- Store holding only the will of `u`. -/
def storeResign : Store := Store.set emptyStore (willKeyOf "u") (Val.will willResign)

/-- A registered record for `bob`. -/
def bobRec : UserRecord := { public_key := "bob", status := some "need_review", profile := [] }

/-- Store whose pending list names `alice` and `bob` but only holds a record
for `bob`: the `alice` entry dangles. -/
def storeDangling : Store :=
  Store.set (Store.set emptyStore "bob" (Val.user bobRec)) KEY_NEED_REVIEW (Val.list ["alice", "bob"])

/-! ## Claims -/

/-- Claim C7: `CreateWill(t, [])` — an absent or empty witness list — persists
the will with `status = 'valid'`, so `Show(t)` returns status `valid`. -/
theorem createWill_empty_valid (s : Store) (body : WillBody)
    (h : body.witnesses = none ∨ body.witnesses = some []) :
    (show_will (create_will s body).1 body.public_key).map WillBody.status
      = some (some "valid") := by
  rcases h with h | h <;>
    simp [create_will, h, show_will, Store.get_set_same]

/-- Witness for C7 at the concrete request `CreateWill("alice", [])`. -/
theorem createWill_empty_valid_witness :
    (show_will (create_will emptyStore
        { public_key := "alice", witnesses := some [], status := none }).1 "alice").map
      WillBody.status = some (some "valid") :=
  createWill_empty_valid emptyStore
    { public_key := "alice", witnesses := some [], status := none } (Or.inr rfl)

/-- Claim C1 fails on the code: on the will of `t` with the two unsigned
witnesses `A` and `B`, the call sequence `Sign(t, A); Sign(t, A)` — only one
distinct witness ever signing — leaves the persisted status `valid`, because
the loop counts the already-signed matching entry twice (`signCount`).  The
stored will shows `B` still unsigned while the status is `valid`. -/
theorem sign_twice_two_witnesses_marks_valid :
    show_will (witness_sign (witness_sign storeAB "t" "A").1 "t" "A").1 "t" =
      some { public_key := "t",
             witnesses := some [{ public_key := "A", status := some "signed" }, entB],
             status := some "valid" } := by decide

/-- Claim C2 fails on the code: re-signing witness `A`, who already carries
`status = 'signed'`, contributes 2 to `sign_count` (once from the
already-signed check, once from the matching-entry branch), so on the will of
`u` the single call `Sign(u, A)` reaches `sign_count = 2 = len(witnesses)`
and persists `status = 'valid'` although `B` has never signed. -/
theorem resign_double_counts :
    signCount "A" [entASigned, entB] = 2 ∧
      show_will (witness_sign storeResign "u" "A").1 "u" =
        some { public_key := "u", witnesses := some [entASigned, entB],
               status := some "valid" } := by decide

/-- Claim C8 fails on the code: with pending list `["alice", "bob"]` where the
record of `alice` was never written, `list_need_approve` raises on the
dangling entry and aborts the whole listing (returns no partial result),
instead of skipping `alice` and returning the resolvable record of `bob`. -/
theorem list_pending_aborts_on_dangling :
    storeDangling "alice" = none ∧ storeDangling "bob" = some (Val.user bobRec) ∧
      list_need_approve storeDangling = none := by decide

/-- Claim C3 as stated fails on the code: after
`CreateWill("alice", [\x7b"public_key":"bob"\x7d])`, the persisted will's status
field is absent, not `'pending'` — the non-empty-witness branch of
`create_will` never writes a status. -/
theorem createWill_no_pending_status :
    (show_will (create_will emptyStore aliceWillReq).1 "alice").map WillBody.status ≠
      some (some "pending") := by decide

/-! ## Lemmas about the sign loop -/

theorem foundWitness_eq_false (witness : String) (ws : List WitnessEntry)
    (h : ∀ wn ∈ ws, wn.public_key ≠ witness) : foundWitness witness ws = false := by
  induction ws with
  | nil => rfl
  | cons wn rest ih =>
    simp only [foundWitness]
    rw [if_neg (h wn (List.mem_cons_self wn rest))]
    exact ih fun w hw => h w (List.mem_cons_of_mem wn hw)

theorem foundWitness_eq_true (witness : String) (ws : List WitnessEntry)
    (h : ∃ wn ∈ ws, wn.public_key = witness) : foundWitness witness ws = true := by
  induction ws with
  | nil => simp at h
  | cons wn rest ih =>
    rcases h with ⟨w, hw, hpk⟩
    rcases List.mem_cons.mp hw with rfl | hw2
    · simp [foundWitness, hpk]
    · by_cases hp : wn.public_key = witness
      · simp [foundWitness, hp]
      · simpa [foundWitness, hp] using ih ⟨w, hw2, hpk⟩

/-- Claim C4: signing with a witness key that matches no entry of the will's
witness list returns the 400 `'Witness is not found in this will'` outcome
and leaves the store untouched — the error return happens before any
`client.set`. -/
theorem sign_unknown_witness_rejected (s : Store) (pubkey witness : String)
    (body : WillBody) (ws : List WitnessEntry)
    (hs : s (willKeyOf pubkey) = some (Val.will body))
    (hw : body.witnesses = some ws)
    (hnot : ∀ wn ∈ ws, wn.public_key ≠ witness) :
    witness_sign s pubkey witness = (s, SignResult.notListed) := by
  simp [witness_sign, hs, hw, foundWitness_eq_false witness ws hnot]

/-- Witness for C4: on the stored will of `t` with witnesses `A` and `B`,
`Sign(t, "zoe")` is rejected and the store is unchanged. -/
theorem sign_unknown_witness_rejected_witness :
    witness_sign storeAB "t" "zoe" = (storeAB, SignResult.notListed) :=
  sign_unknown_witness_rejected storeAB "t" "zoe" willAB [entA, entB]
    (by decide) rfl (by decide)

/-- A stored will of `v` that is already `valid`, its only witness signed. -/
def willValidA : WillBody :=
  { public_key := "v", witnesses := some [entASigned], status := some "valid" }

/-- Store holding only the valid will of `v`. -/
def storeValidA : Store := Store.set emptyStore (willKeyOf "v") (Val.will willValidA)

/-- Claim C9: once a will's persisted status is `valid`, a further `Sign`
call for a listed witness completes without error (the 200 outcome) and
persists a will whose status is still `valid`: the handler only ever assigns
`'valid'` to the status, and otherwise keeps the stored one. -/
theorem valid_terminal_under_sign (s : Store) (pubkey witness : String)
    (body : WillBody) (ws : List WitnessEntry)
    (hs : s (willKeyOf pubkey) = some (Val.will body))
    (hw : body.witnesses = some ws)
    (hvalid : body.status = some "valid")
    (hmem : ∃ wn ∈ ws, wn.public_key = witness) :
    ∃ body2 : WillBody,
      witness_sign s pubkey witness =
        (Store.set s (willKeyOf pubkey) (Val.will body2), SignResult.ok body2) ∧
      body2.status = some "valid" := by
  refine ⟨{ body with
      witnesses := some (signEntries witness ws),
      status := if signCount witness ws = (signEntries witness ws).length
                then some "valid" else body.status }, ?_, ?_⟩
  · simp [witness_sign, hs, hw, foundWitness_eq_true witness ws hmem]
  · by_cases h : signCount witness ws = (signEntries witness ws).length <;> simp [h, hvalid]

/-- Witness for C9: re-signing the only (already signed) witness of the valid
will of `v` succeeds and keeps the status `valid`. -/
theorem valid_terminal_under_sign_witness :
    ∃ body2 : WillBody,
      witness_sign storeValidA "v" "A" =
        (Store.set storeValidA (willKeyOf "v") (Val.will body2), SignResult.ok body2) ∧
      body2.status = some "valid" :=
  valid_terminal_under_sign storeValidA "v" "A" willValidA [entASigned]
    (by decide) rfl rfl ⟨entASigned, by decide, rfl⟩

/-! ## Lemmas about the pending-review list -/

theorem pendingOf_set_list (s : Store) (xs : List String) :
    pendingOf (Store.set s KEY_NEED_REVIEW (Val.list xs)) = xs := by
  simp [pendingOf, Store.get_set_same]

theorem pendingOf_set_other (s : Store) (k : String) (v : Val) (h : KEY_NEED_REVIEW ≠ k) :
    pendingOf (Store.set s k v) = pendingOf s := by
  simp [pendingOf, Store.get_set_ne s k KEY_NEED_REVIEW v h]

theorem pendingOf_eq_of_list (s : Store) (xs : List String)
    (h : s KEY_NEED_REVIEW = some (Val.list xs)) : pendingOf s = xs := by
  simp [pendingOf, h]

theorem register_preserves_nodup (s : Store) (b : UserRecord)
    (h : (pendingOf s).Nodup) : (pendingOf (register_pubkey s b).1).Nodup := by
  unfold register_pubkey
  rcases hk : s KEY_NEED_REVIEW with _ | v
  · by_cases hpk : KEY_NEED_REVIEW = b.public_key
    · simp [pendingOf, Store.set, hpk]
    · rw [pendingOf_set_other _ _ _ hpk, pendingOf_set_list]
      exact List.nodup_singleton _
  · rcases v with xs | u | w
    · have hxs : xs.Nodup := pendingOf_eq_of_list s xs hk ▸ h
      by_cases hpk : KEY_NEED_REVIEW = b.public_key
      · simp [pendingOf, Store.set, hpk]
      · rw [pendingOf_set_other _ _ _ hpk, pendingOf_set_list]
        by_cases hmem : b.public_key ∈ xs
        · simpa [hmem] using hxs
        · simp [hmem, List.nodup_append, hxs]
    · simpa using h
    · simpa using h

theorem approve_preserves_nodup (s : Store) (pk : String)
    (h : (pendingOf s).Nodup) : (pendingOf (approve_public_key s pk).1).Nodup := by
  unfold approve_public_key
  rcases hk : s pk with _ | v
  · simpa using h
  rcases v with xs | u | w
  · simpa using h
  · by_cases hpk : KEY_NEED_REVIEW = pk
    · have hknr : (Store.set s pk (Val.user { u with status := some "approved" }))
          KEY_NEED_REVIEW = some (Val.user { u with status := some "approved" }) :=
        hpk ▸ Store.get_set_same s pk _
      simp [hknr, pendingOf]
    · have hknr : (Store.set s pk (Val.user { u with status := some "approved" }))
          KEY_NEED_REVIEW = s KEY_NEED_REVIEW :=
        Store.get_set_ne s pk KEY_NEED_REVIEW _ hpk
      rcases hk2 : s KEY_NEED_REVIEW with _ | v2
      · simp only [hknr, hk2]
        rw [pendingOf_set_other _ _ _ hpk]
        exact h
      rcases v2 with xs2 | u2 | w2
      · have hxs : xs2.Nodup := pendingOf_eq_of_list s xs2 hk2 ▸ h
        simp only [hknr, hk2]
        rw [pendingOf_set_list]
        by_cases hmem : pk ∈ xs2
        · simpa [hmem] using hxs.erase pk
        · simpa [hmem] using hxs
      · simp only [hknr, hk2]
        rw [pendingOf_set_other _ _ _ hpk]
        exact h
      · simp only [hknr, hk2]
        rw [pendingOf_set_other _ _ _ hpk]
        exact h
  · simpa using h

theorem applyOp_preserves_nodup (s : Store) (op : Op)
    (h : (pendingOf s).Nodup) : (pendingOf (applyOp s op)).Nodup := by
  cases op with
  | register b => exact register_preserves_nodup s b h
  | approve pk => exact approve_preserves_nodup s pk h

theorem foldl_preserves_nodup (ops : List Op) : ∀ s : Store,
    (pendingOf s).Nodup → (pendingOf (ops.foldl applyOp s)).Nodup := by
  induction ops with
  | nil => intro s h; simpa using h
  | cons op rest ih => intro s h; exact ih _ (applyOp_preserves_nodup s op h)

/-- Claim C5: starting from a store whose pending-review list is empty or
absent, every sequence of `Register` and `Approve` operations leaves
`PendingReviewList` without duplicate entries; in particular registering the
same key twice appends it at most once. -/
theorem pending_list_nodup (init : Store) (ops : List Op)
    (h : pendingOf init = []) :
    (pendingOf (ops.foldl applyOp init)).Nodup :=
  foldl_preserves_nodup ops init (h ▸ List.nodup_nil)

/-- Witness for C5: registering `bob` twice from the empty store yields a
duplicate-free pending list. -/
theorem pending_list_nodup_witness :
    (pendingOf ([Op.register bobRec, Op.register bobRec].foldl applyOp emptyStore)).Nodup :=
  pending_list_nodup emptyStore [Op.register bobRec, Op.register bobRec] rfl

/-- A registered record for `carol`. -/
def carolRec : UserRecord := { public_key := "carol", status := some "need_review", profile := [] }

/-- Store in which `carol` is registered: her record exists and the pending
list is `["carol"]`. -/
def storeCarol : Store :=
  Store.set (Store.set emptyStore "carol" (Val.user carolRec)) KEY_NEED_REVIEW (Val.list ["carol"])

/-- Claim C6: for a previously registered key `k` (its record exists and the
pending list — duplicate-free, as every reachable one is — holds it at most
once), after `Approve(k)` the stored record has `status = 'approved'` and `k`
is absent from the pending-review list. -/
theorem approve_removes_from_pending (s : Store) (k : String) (u : UserRecord) (xs : List String)
    (hu : s k = some (Val.user u))
    (hx : s KEY_NEED_REVIEW = some (Val.list xs))
    (hnd : xs.Nodup) (hk : k ≠ KEY_NEED_REVIEW) :
    (show_user (approve_public_key s k).1 k).map UserRecord.status = some (some "approved") ∧
      k ∉ pendingOf (approve_public_key s k).1 := by
  have hk2 : KEY_NEED_REVIEW ≠ k := fun he => hk he.symm
  have hknr : Store.set s k (Val.user { u with status := some "approved" }) KEY_NEED_REVIEW
      = some (Val.list xs) := by
    rw [Store.get_set_ne s k KEY_NEED_REVIEW _ hk2]; exact hx
  simp only [approve_public_key, hu, hknr]
  refine ⟨?_, ?_⟩
  · simp [show_user, Store.get_set_ne _ _ _ _ hk, Store.get_set_same]
  · rw [pendingOf_set_list]
    by_cases hmem : k ∈ xs
    · simpa [hmem] using hnd.not_mem_erase
    · simp only [if_neg hmem]
      exact hmem

/-- Witness for C6: approving the registered `carol`. -/
theorem approve_removes_from_pending_witness :
    (show_user (approve_public_key storeCarol "carol").1 "carol").map UserRecord.status
        = some (some "approved") ∧
      "carol" ∉ pendingOf (approve_public_key storeCarol "carol").1 :=
  approve_removes_from_pending storeCarol "carol" carolRec ["carol"]
    (by decide) (by decide) (by decide) (by decide)

/-! ## Lemmas about the will-index loop -/

theorem listOrAbsent_set_list (s : Store) (k k2 : String) (xs : List String)
    (h : listOrAbsent (s k2) = true) :
    listOrAbsent (Store.set s k (Val.list xs) k2) = true := by
  by_cases he : k2 = k
  · subst he; rw [Store.get_set_same]; rfl
  · rw [Store.get_set_ne s k k2 _ he]; exact h

theorem updateWillLists_succeeds (pubkey : String) (ws : List WitnessEntry) : ∀ s : Store,
    (∀ wn ∈ ws, listOrAbsent (s (willListKeyOf wn.public_key)) = true) →
    (updateWillLists pubkey s ws).2 = true := by
  induction ws with
  | nil => intro s h; rfl
  | cons wn rest ih =>
    intro s h
    have hwn := h wn (List.mem_cons_self wn rest)
    rcases hv : s (willListKeyOf wn.public_key) with _ | v
    · simp only [updateWillLists, hv]
      exact ih _ fun w hw => listOrAbsent_set_list _ _ _ _ (h w (List.mem_cons_of_mem wn hw))
    · rcases v with xs | u | w2
      · simp only [updateWillLists, hv]
        by_cases hmem : pubkey ∈ xs
        · simp only [if_pos hmem]
          exact ih _ fun w hw => h w (List.mem_cons_of_mem wn hw)
        · simp only [if_neg hmem]
          exact ih _ fun w hw => listOrAbsent_set_list _ _ _ _ (h w (List.mem_cons_of_mem wn hw))
      · rw [hv] at hwn; simp [listOrAbsent] at hwn
      · rw [hv] at hwn; simp [listOrAbsent] at hwn

/-- Amended form of claim C3: `CreateWill` with a non-empty witness list
persists at `WILL_` + testator exactly the request body — the status field is
left as supplied (absent when the request had none, never set to `'pending'`)
and the witness entries are stored as given.  The side condition says the
touched `WILL_LIST_*` keys hold lists or are absent, so the index loop does
not raise. -/
theorem createWill_nonempty_stores_body (s : Store) (body : WillBody) (ws : List WitnessEntry)
    (hw : body.witnesses = some ws) (hne : ws ≠ [])
    (hok : ∀ wn ∈ ws, listOrAbsent (s (willListKeyOf wn.public_key)) = true) :
    show_will (create_will s body).1 body.public_key = some body := by
  have hlen : ¬ ws.length = 0 := fun h0 => hne (List.length_eq_zero.mp h0)
  have hup := updateWillLists_succeeds body.public_key ws s hok
  simp only [create_will, hw, if_neg hlen]
  rcases hres : updateWillLists body.public_key s ws with ⟨s1, b⟩
  rw [hres] at hup
  simp only at hup
  subst hup
  simp [show_will, Store.get_set_same]

/-- Witness for the amended C3, at the concrete request
`CreateWill("alice", [\x7b"public_key":"bob"\x7d])` on the empty store: the
persisted will is the request body itself, status absent. -/
theorem createWill_nonempty_stores_body_witness :
    show_will (create_will emptyStore aliceWillReq).1 aliceWillReq.public_key
      = some aliceWillReq :=
  createWill_nonempty_stores_body emptyStore aliceWillReq [bobEntry]
    rfl (by decide) (by decide)

/-- The will `create_will` persists for a given request body: the body
itself, with status forced to `'valid'` exactly when the witness list is
absent or empty.  Stated as its own function so C10 can say the stored will
is a function of the request alone. -/
def createWillStoredBody (body : WillBody) : WillBody :=
  match body.witnesses with
  | none => { body with status := some "valid" }
  | some ws => if ws.length = 0 then { body with status := some "valid" } else body

/-- A pre-existing, fully signed and valid will of `alice`. -/
def oldAliceWill : WillBody :=
  { public_key := "alice", witnesses := some [entASigned], status := some "valid" }

/-- Store already holding the valid will of `alice`. -/
def storeOldAlice : Store := Store.set emptyStore (willKeyOf "alice") (Val.will oldAliceWill)

/-- Claim C10: `create_will` never checks for an existing will: when a will
is already persisted for the testator, the record at `WILL_` + testator after
the call is determined by the new request body alone (`createWillStoredBody`),
with the old will's recorded signatures and status discarded.  The side
condition keeps the index loop from raising, as in the amended C3. -/
theorem createWill_overwrites_existing (s : Store) (old : WillBody) (body : WillBody)
    (_hold : s (willKeyOf body.public_key) = some (Val.will old))
    (hok : ∀ wn ∈ body.witnesses.getD [], listOrAbsent (s (willListKeyOf wn.public_key)) = true) :
    show_will (create_will s body).1 body.public_key = some (createWillStoredBody body) := by
  rcases hw : body.witnesses with _ | ws
  · simp [create_will, createWillStoredBody, hw, show_will, Store.get_set_same]
  · by_cases hlen : ws.length = 0
    · simp [create_will, createWillStoredBody, hw, hlen, show_will, Store.get_set_same]
    · rw [hw] at hok
      have hup := updateWillLists_succeeds body.public_key ws s (by simpa using hok)
      simp only [create_will, createWillStoredBody, hw, if_neg hlen]
      rcases hres : updateWillLists body.public_key s ws with ⟨s1, b⟩
      rw [hres] at hup
      simp only at hup
      subst hup
      simp [show_will, Store.get_set_same]

/-- Witness for C10: `alice` already has a valid, fully signed will; a new
`CreateWill("alice", [\x7b"public_key":"bob"\x7d])` overwrites it with the new
request body, discarding the old signatures and the `valid` status. -/
theorem createWill_overwrites_existing_witness :
    show_will (create_will storeOldAlice aliceWillReq).1 aliceWillReq.public_key
      = some (createWillStoredBody aliceWillReq) :=
  createWill_overwrites_existing storeOldAlice oldAliceWill aliceWillReq
    (by decide) (by decide)
